import Mathlib

/-
Verification of the browser-side mock MongoDB layer of the InterioWala
repository (src/Frontend/lib/mongodb.ts) and the service-level result
cache (services module): the predicate matcher `deepCompare`, the
collection store operations, the per-collection mirror cache, and the
TTL result cache with wildcard invalidation.

Strings are modelled as lists of characters. Numbers are modelled as
rationals: every finite JavaScript double is exactly representable as a
rational, and the code only ever parses and compares numbers, never does
arithmetic on them, so ordering and equality of the modelled values
coincide with the ordering and equality of the original doubles.
-/

namespace InterioWala

/-- Strings, modelled as lists of UTF-16-ish characters. -/
abbrev Str := List Char

/-- JSON-like runtime values handled by the mock layer: null, booleans,
numbers, strings, arrays, plain objects, and instances of the mock
ObjectId class (which wraps its id string). Field lists of objects are
insertion ordered with distinct keys, as JavaScript object keys are. -/
inductive Value : Type where
  | vNull : Value
  | vBool : Bool → Value
  | vNum  : ℚ → Value
  | vStr  : Str → Value
  | vArr  : List Value → Value
  | vObj  : List (Str × Value) → Value
  | vOid  : Str → Value

/-- A document: a JavaScript object, i.e. an insertion-ordered list of
field name / value bindings with distinct keys. -/
abbrev Doc := List (Str × Value)

/-- Property read on an object field list: value of the first binding of
the key, or none when the key is absent (JavaScript undefined). -/
def getFieldL (fields : Doc) (k : Str) : Option Value :=
  (fields.find? (fun p => p.1 == k)).map (fun p => p.2)

/-- Property read `q.k` on an arbitrary value: only plain objects carry
the dollar-operator properties the matcher looks up; arrays and ObjectId
instances yield undefined for them. -/
def getProp (q : Value) (k : Str) : Option Value :=
  match q with
  | .vObj fields => getFieldL fields k
  | _ => none

/-- JavaScript truthiness of a value. -/
def jsTruthy : Value → Bool
  | .vNull => false
  | .vBool b => b
  | .vNum n => !(decide (n = 0))
  | .vStr s => !s.isEmpty
  | .vArr _ => true
  | .vObj _ => true
  | .vOid _ => true

/-- The guard `queryValue && typeof queryValue === 'object'`: true for
non-null objects, arrays and ObjectId instances (typeof 'object' and
truthy); false for null (falsy) and for every primitive. The same test
also models `typeof v === 'object' && v !== null` in the query loops. -/
def isNonNullObj : Value → Bool
  | .vObj _ => true
  | .vArr _ => true
  | .vOid _ => true
  | _ => false

/-- JavaScript strict equality `===` restricted to the values in scope.
Primitives of equal type compare by value; operands of differing types
compare unequal; objects, arrays and ObjectId instances compare by
reference, and a stored document value and a filter literal are always
distinct heap objects, so those comparisons are false. -/
def strictEq : Value → Value → Bool
  | .vNull, .vNull => true
  | .vBool a, .vBool b => a == b
  | .vNum a, .vNum b => decide (a = b)
  | .vStr a, .vStr b => a == b
  | _, _ => false

/-- `===` where the left operand may be undefined (a missing field):
undefined is never strictly equal to a present value. -/
def strictEqOpt : Option Value → Value → Bool
  | none, _ => false
  | some v, w => strictEq v w

/-- SameValueZero, the comparison used by `Array.prototype.includes`.
On the NaN-free values in scope it coincides with strict equality. -/
def sameValueZero (a b : Value) : Bool := strictEq a b

/-- Decimal natural number denoted by a digit string. -/
def natOfDigits (s : Str) : Nat :=
  s.foldl (fun a c => a * 10 + (c.toNat - '0'.toNat)) 0

/-- Unsigned decimal numeral: digits with an optional fraction part, at
least one digit overall (JavaScript accepts "5.", ".5" and "5.5"). -/
def parseUnsignedNum (s : Str) : Option ℚ :=
  let intPart := s.takeWhile (fun c => c.isDigit)
  let rest := s.dropWhile (fun c => c.isDigit)
  match rest with
  | [] => if intPart.isEmpty then none else some ((natOfDigits intPart : ℚ))
  | '.' :: frac =>
      if frac.all (fun c => c.isDigit) && (!intPart.isEmpty || !frac.isEmpty) then
        some ((natOfDigits intPart : ℚ) + (natOfDigits frac : ℚ) / ((10 : ℚ) ^ frac.length))
      else none
  | _ => none

/-- JavaScript ToNumber on a string: surrounding whitespace is ignored,
the empty string denotes 0, otherwise an optionally signed decimal
numeral; anything else is NaN (none). Modelled subset: the exotic
"Infinity", hexadecimal and exponent forms are not modelled; no value
exercised by the theorems below uses them. -/
def jsStringToNumber (s : Str) : Option ℚ :=
  let t := ((s.dropWhile (fun c => c.isWhitespace)).reverse.dropWhile
      (fun c => c.isWhitespace)).reverse
  match t with
  | [] => some 0
  | '-' :: r => (parseUnsignedNum r).map (fun q => -q)
  | '+' :: r => parseUnsignedNum r
  | _ => parseUnsignedNum t

/-- JavaScript ToNumber, with none standing for NaN. Modelled subset:
the ToPrimitive coercion of arrays, plain objects and ObjectId instances
is not modelled (none); no theorem below compares such a value with a
relational operator. -/
def toNumber : Value → Option ℚ
  | .vNull => some 0
  | .vBool b => some (if b then 1 else 0)
  | .vNum n => some n
  | .vStr s => jsStringToNumber s
  | .vArr _ => none
  | .vObj _ => none
  | .vOid _ => none

/-- ToNumber where the operand may be undefined: ToNumber(undefined) is
NaN. -/
def toNumberOpt : Option Value → Option ℚ
  | none => none
  | some v => toNumber v

/-- Lexicographic (code-unit) order on strings, the JavaScript `<` on
two string operands. -/
def lexLt : Str → Str → Bool
  | [], [] => false
  | [], _ :: _ => true
  | _ :: _, [] => false
  | a :: s, b :: t => if a == b then lexLt s t else decide (a < b)

/-- The abstract relational comparison of JavaScript (`a < b`): both
operands strings means code-unit order, otherwise both are coerced with
ToNumber; none stands for the undefined result (a NaN operand). -/
def jsRelLt (a b : Option Value) : Option Bool :=
  match a, b with
  | some (.vStr s), some (.vStr t) => some (lexLt s t)
  | _, _ =>
      match toNumberOpt a, toNumberOpt b with
      | some x, some y => some (decide (x < y))
      | _, _ => none

/-- `item > g`: relational comparison of g with item, undefined gives
false. -/
def jsGtB (item : Option Value) (g : Value) : Bool :=
  (jsRelLt (some g) item).getD false

/-- `item >= g`: true exactly when `item < g` evaluates to false (not
undefined). -/
def jsGeB (item : Option Value) (g : Value) : Bool :=
  match jsRelLt item (some g) with
  | some false => true
  | _ => false

/-- `item < g`: relational comparison, undefined gives false. -/
def jsLtB (item : Option Value) (g : Value) : Bool :=
  (jsRelLt item (some g)).getD false

/-- `item <= g`: true exactly when `g < item` evaluates to false (not
undefined). -/
def jsLeB (item : Option Value) (g : Value) : Bool :=
  match jsRelLt (some g) item with
  | some false => true
  | _ => false

/-- `Array.prototype.includes` with a possibly-undefined argument: the
arrays in scope contain no undefined slot, so a missing field is never
found. -/
def includesB (xs : List Value) (item : Option Value) : Bool :=
  match item with
  | none => false
  | some v => xs.any (fun x => sameValueZero x v)

mutual

/-- Structural equality of the JSON serializations, the meaning of
`JSON.stringify(a) === JSON.stringify(b)` on the values in scope:
serialization is injective up to these clauses (field order preserved,
distinct numbers print distinctly), and an ObjectId instance serializes
exactly like the plain object with its single id field. -/
def jsonEq : Value → Value → Bool
  | .vNull, .vNull => true
  | .vBool a, .vBool b => a == b
  | .vNum a, .vNum b => decide (a = b)
  | .vStr a, .vStr b => a == b
  | .vOid a, .vOid b => a == b
  | .vOid a, .vObj [(k, .vStr b)] => k == "id".toList && a == b
  | .vObj [(k, .vStr b)], .vOid a => k == "id".toList && a == b
  | .vArr as, .vArr bs => jsonEqList as bs
  | .vObj as, .vObj bs => jsonEqFields as bs
  | _, _ => false

/-- Element-wise serialization equality of arrays. -/
def jsonEqList : List Value → List Value → Bool
  | [], [] => true
  | a :: as, b :: bs => jsonEq a b && jsonEqList as bs
  | _, _ => false

/-- Binding-wise serialization equality of object field lists (JSON
serialization preserves insertion order of keys). -/
def jsonEqFields : List (Str × Value) → List (Str × Value) → Bool
  | [], [] => true
  | (k, a) :: as, (l, b) :: bs => k == l && jsonEq a b && jsonEqFields as bs
  | _, _ => false

end

/-- The final default comparison of deepCompare,
`JSON.stringify(itemValue) === JSON.stringify(queryValue)`: stringify of
an undefined field is the undefined value, never strictly equal to the
string produced for the present query value. -/
def jsonEqOpt : Option Value → Value → Bool
  | none, _ => false
  | some v, q => jsonEq v q

/-- The regex branch of deepCompare constructs a RegExp from the pattern
and optional flags and tests the stringified field value; regular
expression matching itself is kept abstract, every theorem below holds
for an arbitrary implementation. Arguments: pattern, the optional
$options value, the field value. -/
abbrev RegexTest := Value → Option Value → Option Value → Bool

def inKey : Str := "$in".toList
def gtKey : Str := "$gt".toList
def gteKey : Str := "$gte".toList
def ltKey : Str := "$lt".toList
def lteKey : Str := "$lte".toList
def neKey : Str := "$ne".toList
def regexKey : Str := "$regex".toList
def optionsKey : Str := "$options".toList
def idKey : Str := "_id".toList
def createdKey : Str := "createdAt".toList
def updatedKey : Str := "updatedAt".toList

/-- The helper deepCompare of mongodb.ts. The source is a chain of
early-return if statements: a present (truthy, array-valued) $in key
returns the membership test; otherwise a present $gt key returns the
greater-than test; then $gte, $lt, $lte, $ne in that order; then a
truthy $regex builds a RegExp and returns its test; and only when none
of the above fired does control fall through to the default
JSON-serialization comparison. The whole operator chain is guarded by
`queryValue && typeof queryValue === 'object'`. -/
def deepCompare (rt : RegexTest) (item : Option Value) (q : Value) : Bool :=
  if isNonNullObj q then
    match getProp q inKey with
    | some (.vArr xs) => includesB xs item
    | _ =>
      match getProp q gtKey with
      | some g => jsGtB item g
      | none =>
        match getProp q gteKey with
        | some g => jsGeB item g
        | none =>
          match getProp q ltKey with
          | some g => jsLtB item g
          | none =>
            match getProp q lteKey with
            | some g => jsLeB item g
            | none =>
              match getProp q neKey with
              | some v => !(strictEqOpt item v)
              | none =>
                match getProp q regexKey with
                | some p =>
                    if jsTruthy p then rt p (getProp q optionsKey) item
                    else jsonEqOpt item q
                | none => jsonEqOpt item q
  else jsonEqOpt item q

/-- A concrete regex implementation used only to instantiate closed
theorems whose inputs never reach the regex branch. -/
def rtNone : RegexTest := fun _ _ _ => false

/-- One conjunct of the query loops: `typeof query[key] === 'object' &&
query[key] !== null` routes to deepCompare, anything else to strict
equality of `item[key]` with the literal. -/
def matchField (rt : RegexTest) (d : Doc) (k : Str) (qv : Value) : Bool :=
  if isNonNullObj qv then deepCompare rt (getFieldL d k) qv
  else strictEqOpt (getFieldL d k) qv

/-- `Object.keys(query).every(...)`: every filter field must match. -/
def matchQuery (rt : RegexTest) (d : Doc) (q : Doc) : Bool :=
  q.all (fun p => matchField rt d p.1 p.2)

/-- Unwrap a mock ObjectId instance to its id string
(`x instanceof ObjectId ? x.toString() : x`). -/
def unwrapOid : Value → Value
  | .vOid s => .vStr s
  | v => v

/-- The `query._id` branch shared by findOne, updateOne and deleteOne:
both ids are unwrapped from ObjectId instances and compared with `===`;
a document without an _id field yields undefined, which is strictly
equal to nothing. -/
def idMatch (d : Doc) (qid : Value) : Bool :=
  match getFieldL d idKey with
  | none => false
  | some iv => strictEq (unwrapOid iv) (unwrapOid qid)

/-- The per-item predicate of findOne, updateOne and deleteOne: when the
filter carries a truthy _id value, match solely on ids; otherwise run
the full field loop. The three operations inline identical copies of
this logic in the source. -/
def matchesQuery (rt : RegexTest) (d : Doc) (q : Doc) : Bool :=
  match getFieldL q idKey with
  | some qid => if jsTruthy qid then idMatch d qid else matchQuery rt d q
  | none => matchQuery rt d q

/-- The two storage tiers of the mock database: `cache` is the module
level collectionCache, `store` holds the parsed contents of the
localStorage keys (one durable key per collection, holding the whole
serialized array; serialization round-trips faithfully on the values in
scope, so the parsed list stands for the persisted string). -/
structure DB where
  cache : List (Str × List Doc)
  store : List (Str × List Doc)

/-- Key lookup in either tier (JavaScript object property read /
localStorage.getItem): first binding of the name, none when absent. -/
def lookupCol (l : List (Str × List Doc)) (n : Str) : Option (List Doc) :=
  (l.find? (fun p => p.1 == n)).map (fun p => p.2)

/-- Key update (JavaScript property assignment / localStorage.setItem):
keys are unique per tier, so the new binding replaces any old one. -/
def setCol (l : List (Str × List Doc)) (n : Str) (v : List Doc) :
    List (Str × List Doc) :=
  (n, v) :: l.filter (fun p => !(p.1 == n))

/-- Contents of the backing medium for a collection, an absent key
parsing to the empty array (`storedData ? JSON.parse(storedData) : []`). -/
def storeGet (db : DB) (n : Str) : List Doc :=
  (lookupCol db.store n).getD []

/-- The read phase of the mutating operations: take the cached array if
the cache entry is present, otherwise parse the backing medium; the
cache is not populated here. -/
def loadItems (db : DB) (n : Str) : List Doc :=
  match lookupCol db.cache n with
  | some items => items
  | none => storeGet db n

/-- The read phase of the read operations (toArray, findOne,
countDocuments): serve a present cache entry directly, otherwise load
from the backing medium and populate the cache entry. -/
def readItems (db : DB) (n : Str) : List Doc × DB :=
  match lookupCol db.cache n with
  | some items => (items, db)
  | none =>
      let items := storeGet db n
      (items, { db with cache := setCol db.cache n items })

/-- `find(query).sort(sortOptions).toArray()` of the mock collection:
the query and the sort options are both ignored; every document of the
collection is returned in insertion order. -/
def findToArray (db : DB) (n : Str) (_query : Doc) : List Doc × DB :=
  readItems db n

/-- findOne of the mock collection: first document satisfying the
per-item predicate, in insertion order, or none. -/
def findOne (rt : RegexTest) (db : DB) (n : Str) (q : Doc) :
    Option Doc × DB :=
  let r := readItems db n
  (r.1.find? (fun d => matchesQuery rt d q), r.2)

/-- JavaScript property assignment `d[k] = v`: an existing key keeps its
position and gets the new value, a new key is appended. -/
def setField (d : Doc) (k : Str) (v : Value) : Doc :=
  if d.any (fun p => p.1 == k) then
    d.map (fun p => if p.1 == k then (k, v) else p)
  else d ++ [(k, v)]

/-- The stamping phase of insertOne (and of each document of
insertMany): a falsy or absent _id is replaced by a freshly generated id
string, `createdAt` is set to `doc.createdAt || now`, and `updatedAt` is
set to now. -/
def stampInsert (newId now : Str) (doc : Doc) : Doc :=
  let d1 :=
    if (getFieldL doc idKey).elim false jsTruthy then doc
    else setField doc idKey (.vStr newId)
  let d2 :=
    if (getFieldL d1 createdKey).elim false jsTruthy then d1
    else setField d1 createdKey (.vStr now)
  setField d2 updatedKey (.vStr now)

/-- insertOne: stamp the document, append it to the collection array,
then replace the cache entry and persist the whole array; returns the
inserted id and the acknowledgement. The fresh ObjectId string and the
current timestamp string enter as parameters. -/
def insertOne (newId now : Str) (db : DB) (n : Str) (doc : Doc) :
    (Value × Bool) × DB :=
  let d := stampInsert newId now doc
  let items := loadItems db n ++ [d]
  (((getFieldL d idKey).getD .vNull, true),
    { cache := setCol db.cache n items, store := setCol db.store n items })

/-- The state observed when the final localStorage.setItem of insertOne
raises (for example on exceeded quota): the source replaces the cache
entry on the line before the persist call, so the cache already holds
the post-operation array while the backing medium keeps its
pre-operation contents. -/
def insertOneStoreFail (newId now : Str) (db : DB) (n : Str) (doc : Doc) : DB :=
  let d := stampInsert newId now doc
  let items := loadItems db n ++ [d]
  { cache := setCol db.cache n items, store := db.store }

/-- Per-document stamping loop of insertMany: a fresh id is drawn from
the generator for every document slot (only consumed when the document
lacks a truthy _id). -/
def stampMany (gen : Nat → Str) (now : Str) : Nat → List Doc → List Doc
  | _, [] => []
  | k, d :: ds => stampInsert (gen k) now d :: stampMany gen now (k + 1) ds

/-- insertMany: stamp every document, append them all, then replace the
cache entry and persist once for the whole batch. -/
def insertMany (gen : Nat → Str) (now : Str) (db : DB) (n : Str)
    (docs : List Doc) : (Nat × List Value × Bool) × DB :=
  let stamped := stampMany gen now 0 docs
  let items := loadItems db n ++ stamped
  ((docs.length, stamped.map (fun d => (getFieldL d idKey).getD .vNull), true),
    { cache := setCol db.cache n items, store := setCol db.store n items })

/-- `Array.prototype.findIndex`: index of the first element satisfying
the predicate, in insertion order. -/
def findIndex (p : Doc → Bool) : List Doc → Option Nat
  | [] => none
  | d :: ds => if p d then some 0 else (findIndex p ds).map (fun i => i + 1)

/-- The forEach over `Object.keys(update.$set)` assigning each field of
the partial into the matched document. -/
def applySet (d : Doc) (u : Doc) : Doc :=
  u.foldl (fun acc p => setField acc p.1 p.2) d

/-- updateOne: find the index of the first document matching the filter;
no match returns counts of zero with the state untouched; otherwise the
$set partial (when present and truthy) is merged into that document,
its updatedAt is refreshed, and the updated array replaces both the
cache entry and the persisted array. -/
def updateOne (rt : RegexTest) (now : Str) (db : DB) (n : Str) (q : Doc)
    (uSet : Option Doc) : (Nat × Nat × Bool) × DB :=
  let items := loadItems db n
  match findIndex (fun d => matchesQuery rt d q) items with
  | none => ((0, 0, true), db)
  | some i =>
      let d0 := items.getD i []
      let d1 := match uSet with
                | some u => applySet d0 u
                | none => d0
      let d2 := setField d1 updatedKey (.vStr now)
      let items2 := items.set i d2
      ((1, 1, true),
        { cache := setCol db.cache n items2, store := setCol db.store n items2 })

/-- deleteOne: find the index of the first document matching the filter;
no match returns a deleted count of zero with the state untouched;
otherwise the document is spliced out and the shortened array replaces
both the cache entry and the persisted array. -/
def deleteOne (rt : RegexTest) (db : DB) (n : Str) (q : Doc) :
    (Nat × Bool) × DB :=
  let items := loadItems db n
  match findIndex (fun d => matchesQuery rt d q) items with
  | none => ((0, true), db)
  | some i =>
      let items2 := items.eraseIdx i
      ((1, true),
        { cache := setCol db.cache n items2, store := setCol db.store n items2 })

/-- countDocuments: an empty query returns the collection length,
otherwise the number of documents matching the plain field loop (no
_id shortcut here, unlike findOne). -/
def countDocuments (rt : RegexTest) (db : DB) (n : Str) (q : Doc) :
    Nat × DB :=
  let r := readItems db n
  if q.isEmpty then (r.1.length, r.2)
  else ((r.1.filter (fun d => matchQuery rt d q)).length, r.2)

/-- The collection cache consistency invariant of claim C4: every
present cache entry equals the array persisted for that collection. -/
def Consistent (db : DB) : Prop :=
  ∀ p ∈ db.cache, storeGet db p.1 = p.2

/-- An entry of the service-level result cache: a computed value paired
with the timestamp of its creation. -/
structure CEntry (α : Type) where
  data : α
  timestamp : Int

/-- The service-level result cache, keyed by operation signature. -/
abbrev SvcCache (α : Type) := List (Str × CEntry α)

/-- Entry lookup in the result cache. -/
def svcLookup {α : Type} (c : SvcCache α) (k : Str) : Option (CEntry α) :=
  (c.find? (fun p => p.1 == k)).map (fun p => p.2)

/-- Entry replacement in the result cache (object keys are unique). -/
def svcSet {α : Type} (c : SvcCache α) (k : Str) (e : CEntry α) : SvcCache α :=
  (k, e) :: c.filter (fun p => !(p.1 == k))

/-- The cache expiration constant of the services module: five minutes
in milliseconds. -/
def CACHE_EXPIRATION : Int := 5 * 60 * 1000

/-- The caching pattern shared by every cached service read
(designService.getAll and getById, projectService, userService): a
present entry younger than the expiration bound is returned as is;
otherwise the value is recomputed and stored with the current
timestamp. The time-to-live enters as a parameter; every call site in
the source passes CACHE_EXPIRATION. -/
def getOrCompute {α : Type} (c : SvcCache α) (k : Str) (ttl now : Int)
    (compute : α) : α × SvcCache α :=
  match svcLookup c k with
  | some e =>
      if now - e.timestamp < ttl then (e.data, c)
      else (compute, svcSet c k ⟨compute, now⟩)
  | none => (compute, svcSet c k ⟨compute, now⟩)

/-- `key.replace('*', '')`: remove the first occurrence of the wildcard
marker. -/
def removeFirstStar : Str → Str
  | [] => []
  | c :: cs => if c == '*' then cs else c :: removeFirstStar cs

/-- invalidateServiceCache of the services module: no argument clears
every entry; a key containing the wildcard marker removes every entry
whose key starts with the pattern minus its first marker; any other key
removes exactly the binding of that key. -/
def invalidateServiceCache {α : Type} (c : SvcCache α) (key : Option Str) :
    SvcCache α :=
  match key with
  | none => []
  | some k =>
      if k.contains '*' then
        c.filter (fun p => !((removeFirstStar k).isPrefixOf p.1))
      else
        c.filter (fun p => !(p.1 == k))

/-- JavaScript typeof of a value (null, arrays, plain objects and
ObjectId instances all report object). -/
def jsTypeof : Value → Str
  | .vNull => "object".toList
  | .vBool _ => "boolean".toList
  | .vNum _ => "number".toList
  | .vStr _ => "string".toList
  | .vArr _ => "object".toList
  | .vObj _ => "object".toList
  | .vOid _ => "object".toList

/-- The spec error taxonomy member raised on an unrecognized filter
operator key. -/
inductive SpecError : Type where
  | validationError : SpecError
  deriving DecidableEq

/-- The operator keys the spec recognizes. -/
def specRecognizedKeys : List Str :=
  [inKey, gtKey, gteKey, ltKey, lteKey, neKey, regexKey, optionsKey]

/-- One recognized operator of the spec matcher ($options is a modifier
of $regex and imposes no condition of its own). -/
def specEvalOp (rt : RegexTest) (item : Option Value) (k : Str) (v : Value)
    (opts : Option Value) : Bool :=
  if k == inKey then
    match v with
    | .vArr xs => includesB xs item
    | _ => false
  else if k == gtKey then jsGtB item v
  else if k == gteKey then jsGeB item v
  else if k == ltKey then jsLtB item v
  else if k == lteKey then jsLeB item v
  else if k == neKey then !(strictEqOpt item v)
  else if k == regexKey then rt v opts item
  else true

/-- Modelled from the spec (sections 4.2 and 7), for comparison with the
source deepCompare, which returns a plain boolean: a filter value object
carrying an operator key (a dollar-prefixed key) that is not recognized
fails loudly with a ValidationError; otherwise every present recognized
operator is evaluated and the results are conjoined; a filter value with
no operator key matches by deep structural equality. -/
def specDeepCompare (rt : RegexTest) (item : Option Value) (q : Value) :
    Except SpecError Bool :=
  match q with
  | .vObj fields =>
      if fields.any (fun p =>
          p.1.head? == some '$' && !(specRecognizedKeys.contains p.1)) then
        .error .validationError
      else if fields.any (fun p => specRecognizedKeys.contains p.1) then
        .ok (fields.all (fun p =>
          if p.1 == optionsKey then true
          else specEvalOp rt item p.1 p.2 (getFieldL fields optionsKey)))
      else .ok (jsonEqOpt item q)
  | _ => .ok (jsonEqOpt item q)

/- Concrete inputs for the counterexample and witness theorems. -/

def catKey : Str := "category".toList
def ageKey : Str := "age".toList
def cName : Str := "c".toList
def designsName : Str := "designs".toList

def dKitchen : Doc := [(idKey, .vStr "a".toList), (catKey, .vStr "Kitchen".toList)]
def dLiving : Doc := [(idKey, .vStr "b".toList), (catKey, .vStr "Living Room".toList)]
def dbC1 : DB := ⟨[], [(designsName, [dKitchen, dLiving])]⟩
def qKitchen : Doc := [(catKey, .vStr "Kitchen".toList)]

def ageRangeQ : Value := .vObj [(gteKey, .vNum 18), (lteKey, .vNum 65)]
def fooQ : Value := .vObj [("$foo".toList, .vNum 1)]
def dbC3 : DB := ⟨[], [("people".toList, [[(ageKey, .vNum 30)]])]⟩

def dA : Doc := [(idKey, .vStr "1".toList), (ageKey, .vNum 5)]
def dB : Doc := [(idKey, .vStr "2".toList), (ageKey, .vNum 30)]
def dC : Doc := [(idKey, .vStr "3".toList), (ageKey, .vNum 30)]
def dbC8 : DB := ⟨[], [(cName, [dA, dB, dC])]⟩
def qAge30 : Doc := [(ageKey, .vNum 30)]
def qAge99 : Doc := [(ageKey, .vNum 99)]

def dbC9 : DB := ⟨[(cName, [])], [(cName, [])]⟩
def docC9 : Doc := [("x".toList, .vNum 1)]

def d10a : Doc := [(idKey, .vStr []), (catKey, .vStr "Y".toList)]
def q10a : Doc := [(idKey, .vStr []), (catKey, .vStr "X".toList)]
def db10a : DB := ⟨[], [(cName, [d10a])]⟩
def d10b : Doc := [(idKey, .vStr "x".toList), (catKey, .vStr "yes".toList)]
def q10b : Doc := [(idKey, .vOid "x".toList), (catKey, .vStr "no".toList)]
def db10b : DB := ⟨[], [(cName, [d10b])]⟩

def svcC5 : SvcCache ℚ := [("k".toList, ⟨7, 0⟩)]
def svcC6 : SvcCache ℚ :=
  [("design_1".toList, ⟨1, 0⟩), ("design_2".toList, ⟨2, 0⟩),
   ("designs_getAll".toList, ⟨3, 0⟩)]


theorem find?_filter_key {β : Type} (l : List (Str × β)) (n m : Str)
    (h : (m == n) = false) :
    (l.filter (fun p => !(p.1 == n))).find? (fun p => p.1 == m) =
      l.find? (fun p => p.1 == m) := by
  induction l with
  | nil => rfl
  | cons a l ih =>
    by_cases ha : (a.1 == n) = true
    · have hane : a.1 = n := by simpa using ha
      have ham : (a.1 == m) = false := by
        subst hane
        simpa [BEq.comm] using h
      simp [List.filter_cons, ha, List.find?_cons, ham, ih]
    · have ha' : (a.1 == n) = false := by simpa using ha
      by_cases ham : (a.1 == m) = true
      · simp [List.filter_cons, ha', List.find?_cons, ham]
      · simp [List.filter_cons, ha', List.find?_cons, ham, ih]

theorem lookupCol_setCol_same (l : List (Str × List Doc)) (n : Str)
    (v : List Doc) : lookupCol (setCol l n v) n = some v := by
  simp [lookupCol, setCol, List.find?_cons]

theorem lookupCol_setCol_ne (l : List (Str × List Doc)) (n m : Str)
    (v : List Doc) (h : ¬ m = n) :
    lookupCol (setCol l n v) m = lookupCol l m := by
  have hb : (m == n) = false := by simpa using h
  have hnb : (n == m) = false := by simpa using (Ne.symm h)
  simp [lookupCol, setCol, List.find?_cons, hnb, find?_filter_key _ _ _ hb]

theorem storeGet_writeBoth_same (db : DB) (n : Str) (items : List Doc) :
    storeGet ⟨setCol db.cache n items, setCol db.store n items⟩ n = items := by
  simp [storeGet, lookupCol_setCol_same]

theorem storeGet_writeBoth_ne (db : DB) (n m : Str) (items : List Doc)
    (h : ¬ m = n) :
    storeGet ⟨setCol db.cache n items, setCol db.store n items⟩ m =
      storeGet db m := by
  simp [storeGet, lookupCol_setCol_ne _ _ _ _ h]

theorem consistent_writeBoth (db : DB) (n : Str) (items : List Doc)
    (h : Consistent db) :
    Consistent ⟨setCol db.cache n items, setCol db.store n items⟩ := by
  intro p hp
  rcases List.mem_cons.1 hp with hp1 | hp2
  · subst hp1
    exact storeGet_writeBoth_same db n items
  · have hpc : p ∈ db.cache := List.mem_of_mem_filter hp2
    have hpn : (p.1 == n) = false := by
      have := List.of_mem_filter hp2
      simpa using this
    have hne : ¬ p.1 = n := by simpa using hpn
    calc storeGet ⟨setCol db.cache n items, setCol db.store n items⟩ p.1
        = storeGet db p.1 := storeGet_writeBoth_ne db n p.1 items hne
      _ = p.2 := h p hpc

theorem findIndex_append_first (p : Doc → Bool) (pre : List Doc) (d : Doc)
    (post : List Doc) (h : ∀ x ∈ pre, p x = false) (hd : p d = true) :
    findIndex p (pre ++ d :: post) = some pre.length := by
  induction pre with
  | nil => simp [findIndex, hd]
  | cons a l ih =>
    have ha : p a = false := h a (by simp)
    have ih' := ih (fun x hx => h x (by simp [hx]))
    simp [findIndex, ha, ih']

theorem findIndex_eq_none (p : Doc → Bool) (l : List Doc)
    (h : ∀ x ∈ l, p x = false) : findIndex p l = none := by
  induction l with
  | nil => rfl
  | cons a l ih =>
    have ha : p a = false := h a (by simp)
    simp [findIndex, ha, ih (fun x hx => h x (by simp [hx]))]

theorem getD_append_len (pre : List Doc) (d : Doc) (post : List Doc) :
    (pre ++ d :: post).getD pre.length [] = d := by
  induction pre with
  | nil => rfl
  | cons a l ih => simpa using ih

theorem set_append_len (pre : List Doc) (d x : Doc) (post : List Doc) :
    (pre ++ d :: post).set pre.length x = pre ++ x :: post := by
  induction pre with
  | nil => rfl
  | cons a l ih => simp [ih]

theorem removeFirstStar_append_star (stem : Str) (h : '*' ∉ stem) :
    removeFirstStar (stem ++ ['*']) = stem := by
  induction stem with
  | nil => rfl
  | cons c cs ih =>
    have hc : ¬ c = '*' := fun hcc => h (by simp [hcc])
    have hcb : (c == '*') = false := by simpa using hc
    simp [removeFirstStar, hcb, ih (fun hm => h (by simp [hm]))]

/-- Claim C5: a result cache entry stored at t0 is served on a lookup at
now exactly while now - t0 < ttl, is recomputed (and restamped) once the
ttl has elapsed or no entry exists, and the expiration constant every
call site passes is five minutes in milliseconds. -/
theorem C5_result_cache_ttl :
    (∀ (α : Type) (c : SvcCache α) (k : Str) (ttl now : Int) (f : α)
       (e : CEntry α), svcLookup c k = some e → now - e.timestamp < ttl →
       getOrCompute c k ttl now f = (e.data, c)) ∧
    (∀ (α : Type) (c : SvcCache α) (k : Str) (ttl now : Int) (f : α)
       (e : CEntry α), svcLookup c k = some e → ttl ≤ now - e.timestamp →
       getOrCompute c k ttl now f = (f, svcSet c k ⟨f, now⟩)) ∧
    (∀ (α : Type) (c : SvcCache α) (k : Str) (ttl now : Int) (f : α),
       svcLookup c k = none →
       getOrCompute c k ttl now f = (f, svcSet c k ⟨f, now⟩)) ∧
    CACHE_EXPIRATION = 5 * 60 * 1000 := by
  refine ⟨?_, ?_, ?_, rfl⟩
  · intro α c k ttl now f e he hfresh
    simp [getOrCompute, he, hfresh]
  · intro α c k ttl now f e he hstale
    have : ¬ now - e.timestamp < ttl := not_lt.2 hstale
    simp [getOrCompute, he, this]
  · intro α c k ttl now f he
    simp [getOrCompute, he]

/-- Witness for C5 at the concrete numbers of the claim: an entry
stamped at 0 with ttl 5000 is returned unchanged at 4999 and recomputed
at 5001. -/
theorem C5_result_cache_ttl_witness :
    getOrCompute svcC5 "k".toList 5000 4999 (9 : ℚ) = (7, svcC5) ∧
    getOrCompute svcC5 "k".toList 5000 5001 (9 : ℚ) =
      (9, svcSet svcC5 "k".toList ⟨9, 5001⟩) := by
  constructor
  · exact C5_result_cache_ttl.1 ℚ svcC5 "k".toList 5000 4999 9 ⟨7, 0⟩
      rfl (by decide)
  · exact C5_result_cache_ttl.2.1 ℚ svcC5 "k".toList 5000 5001 9 ⟨7, 0⟩
      rfl (by decide)

/-- Claim C6: invalidation with an exact (marker-free) key keeps exactly
the entries with a different key; a pattern of a marker-free stem
followed by the wildcard marker keeps exactly the entries whose key does
not start with the stem; no argument clears everything. -/
theorem C6_invalidate :
    (∀ (α : Type) (c : SvcCache α) (k : Str), '*' ∉ k →
       ∀ p : Str × CEntry α, p ∈ invalidateServiceCache c (some k) ↔
         p ∈ c ∧ ¬ p.1 = k) ∧
    (∀ (α : Type) (c : SvcCache α) (stem : Str), '*' ∉ stem →
       ∀ p : Str × CEntry α,
         p ∈ invalidateServiceCache c (some (stem ++ ['*'])) ↔
           p ∈ c ∧ stem.isPrefixOf p.1 = false) ∧
    (∀ (α : Type) (c : SvcCache α), invalidateServiceCache c none = []) := by
  refine ⟨?_, ?_, fun α c => rfl⟩
  · intro α c k hk p
    simp [invalidateServiceCache, hk, List.mem_filter]
  · intro α c stem hstem p
    simp [invalidateServiceCache,
      removeFirstStar_append_star stem hstem, List.mem_filter]

/-- Witness for C6 on the concrete example of the claim: invalidating
design_ with a trailing wildcard over the keys design_1, design_2 and
designs_getAll removes the first two and keeps designs_getAll, and an
exact-key invalidation keeps the other entries. -/
theorem C6_invalidate_witness :
    (("designs_getAll".toList, (⟨3, 0⟩ : CEntry ℚ)) ∈
       invalidateServiceCache svcC6 (some ("design_".toList ++ ['*'])) ∧
     ¬ ("design_1".toList, (⟨1, 0⟩ : CEntry ℚ)) ∈
       invalidateServiceCache svcC6 (some ("design_".toList ++ ['*'])) ∧
     ¬ ("design_2".toList, (⟨2, 0⟩ : CEntry ℚ)) ∈
       invalidateServiceCache svcC6 (some ("design_".toList ++ ['*']))) ∧
    (("design_2".toList, (⟨2, 0⟩ : CEntry ℚ)) ∈
       invalidateServiceCache svcC6 (some "design_1".toList)) := by
  have hw := C6_invalidate.2.1 ℚ svcC6 "design_".toList (by decide)
  have he := C6_invalidate.1 ℚ svcC6 "design_1".toList (by decide)
  refine ⟨⟨?_, ?_, ?_⟩, ?_⟩
  · exact (hw _).2 ⟨by simp [svcC6], by decide⟩
  · intro hmem
    exact absurd ((hw _).1 hmem).2 (by decide)
  · intro hmem
    exact absurd ((hw _).1 hmem).2 (by decide)
  · exact (he _).2 ⟨by simp [svcC6], by decide⟩

/-- Claim C8: updateOne merges the $set partial into only the first
document (in insertion order) matching the filter and refreshes its
updatedAt field; every document before it and after it is unchanged in
place; and when no document matches, the counts are zero, no error is
raised, and the whole state (both tiers) is untouched. -/
theorem C8_updateOne_first_match :
    (∀ (rt : RegexTest) (now : Str) (db : DB) (n : Str) (q u : Doc)
       (pre : List Doc) (d : Doc) (post : List Doc),
       loadItems db n = pre ++ d :: post →
       (∀ x ∈ pre, matchesQuery rt x q = false) →
       matchesQuery rt d q = true →
       updateOne rt now db n q (some u) =
         ((1, 1, true),
          ⟨setCol db.cache n
             (pre ++ setField (applySet d u) updatedKey (.vStr now) :: post),
           setCol db.store n
             (pre ++ setField (applySet d u) updatedKey (.vStr now) :: post)⟩)) ∧
    (∀ (rt : RegexTest) (now : Str) (db : DB) (n : Str) (q u : Doc),
       (∀ x ∈ loadItems db n, matchesQuery rt x q = false) →
       updateOne rt now db n q (some u) = ((0, 0, true), db)) := by
  constructor
  · intro rt now db n q u pre d post hload hpre hd
    have hidx : findIndex (fun x => matchesQuery rt x q) (pre ++ d :: post) =
        some pre.length := findIndex_append_first _ pre d post hpre hd
    simp [updateOne, hload, hidx, getD_append_len, set_append_len,
      List.getElem_append_right, Nat.sub_self, List.getElem_cons_zero]
  · intro rt now db n q u hnone
    have hidx : findIndex (fun x => matchesQuery rt x q) (loadItems db n) =
        none := findIndex_eq_none _ _ hnone
    simp [updateOne, hidx]

/-- Witness for C8: in a three-document collection where the second and
third match, only the second is rewritten; a filter matching nothing
returns zero counts and the untouched state. -/
theorem C8_updateOne_first_match_witness :
    updateOne rtNone "t".toList dbC8 cName qAge30
        (some [(catKey, .vStr "u".toList)]) =
      ((1, 1, true),
       ⟨setCol dbC8.cache cName
          ([dA] ++ setField (applySet dB [(catKey, .vStr "u".toList)])
             updatedKey (.vStr "t".toList) :: [dC]),
        setCol dbC8.store cName
          ([dA] ++ setField (applySet dB [(catKey, .vStr "u".toList)])
             updatedKey (.vStr "t".toList) :: [dC])⟩) ∧
    updateOne rtNone "t".toList dbC8 cName qAge99
        (some [(catKey, .vStr "u".toList)]) = ((0, 0, true), dbC8) := by
  constructor
  · exact C8_updateOne_first_match.1 rtNone "t".toList dbC8 cName qAge30
      [(catKey, .vStr "u".toList)] [dA] dB [dC] rfl (by decide) (by decide)
  · exact C8_updateOne_first_match.2 rtNone "t".toList dbC8 cName qAge99
      [(catKey, .vStr "u".toList)] (by decide)

/-- Claim C4: every mutating operation that completes replaces the cache
entry and the persisted array of the touched collection with one and the
same array (both tiers hold exactly the new contents), and each of the
four mutating operations preserves the invariant that every present
cache entry equals the persisted array of its collection. -/
theorem C4_cache_store_consistency :
    (∀ (newId now : Str) (db : DB) (n : Str) (doc : Doc),
       Consistent db → Consistent (insertOne newId now db n doc).2) ∧
    (∀ (newId now : Str) (db : DB) (n : Str) (doc : Doc),
       lookupCol (insertOne newId now db n doc).2.cache n =
         some (storeGet (insertOne newId now db n doc).2 n)) ∧
    (∀ (gen : Nat → Str) (now : Str) (db : DB) (n : Str) (docs : List Doc),
       Consistent db → Consistent (insertMany gen now db n docs).2) ∧
    (∀ (gen : Nat → Str) (now : Str) (db : DB) (n : Str) (docs : List Doc),
       lookupCol (insertMany gen now db n docs).2.cache n =
         some (storeGet (insertMany gen now db n docs).2 n)) ∧
    (∀ (rt : RegexTest) (now : Str) (db : DB) (n : Str) (q : Doc)
       (u : Option Doc), Consistent db →
       Consistent (updateOne rt now db n q u).2) ∧
    (∀ (rt : RegexTest) (now : Str) (db : DB) (n : Str) (q : Doc)
       (u : Option Doc), (updateOne rt now db n q u).1.1 = 1 →
       lookupCol (updateOne rt now db n q u).2.cache n =
         some (storeGet (updateOne rt now db n q u).2 n)) ∧
    (∀ (rt : RegexTest) (db : DB) (n : Str) (q : Doc), Consistent db →
       Consistent (deleteOne rt db n q).2) ∧
    (∀ (rt : RegexTest) (db : DB) (n : Str) (q : Doc),
       (deleteOne rt db n q).1.1 = 1 →
       lookupCol (deleteOne rt db n q).2.cache n =
         some (storeGet (deleteOne rt db n q).2 n)) := by
  refine ⟨?_, ?_, ?_, ?_, ?_, ?_, ?_, ?_⟩
  · intro newId now db n doc h
    exact consistent_writeBoth db n _ h
  · intro newId now db n doc
    simp only [insertOne]
    rw [storeGet_writeBoth_same db n _]
    exact lookupCol_setCol_same _ _ _
  · intro gen now db n docs h
    exact consistent_writeBoth db n _ h
  · intro gen now db n docs
    simp only [insertMany]
    rw [storeGet_writeBoth_same db n _]
    exact lookupCol_setCol_same _ _ _
  · intro rt now db n q u h
    rcases hidx : findIndex (fun x => matchesQuery rt x q) (loadItems db n) with
      _ | i
    · simpa [updateOne, hidx] using h
    · simp only [updateOne, hidx]
      exact consistent_writeBoth db n _ h
  · intro rt now db n q u h1
    rcases hidx : findIndex (fun x => matchesQuery rt x q) (loadItems db n) with
      _ | i
    · exfalso
      simp [updateOne, hidx] at h1
    · simp only [updateOne, hidx]
      rw [storeGet_writeBoth_same db n _]
      exact lookupCol_setCol_same _ _ _
  · intro rt db n q h
    rcases hidx : findIndex (fun x => matchesQuery rt x q) (loadItems db n) with
      _ | i
    · simpa [deleteOne, hidx] using h
    · simp only [deleteOne, hidx]
      exact consistent_writeBoth db n _ h
  · intro rt db n q h1
    rcases hidx : findIndex (fun x => matchesQuery rt x q) (loadItems db n) with
      _ | i
    · exfalso
      simp [deleteOne, hidx] at h1
    · simp only [deleteOne, hidx]
      rw [storeGet_writeBoth_same db n _]
      exact lookupCol_setCol_same _ _ _

/-- Witness for C4: a consistent initial state stays consistent through
insertOne and updateOne, and a completed updateOne leaves the cache
entry equal to the persisted array. -/
theorem C4_cache_store_consistency_witness :
    Consistent (insertOne "i".toList "t".toList dbC8 cName docC9).2 ∧
    Consistent (updateOne rtNone "t".toList dbC8 cName qAge30
      (some [(catKey, .vStr "u".toList)])).2 ∧
    lookupCol (updateOne rtNone "t".toList dbC8 cName qAge30
        (some [(catKey, .vStr "u".toList)])).2.cache cName =
      some (storeGet (updateOne rtNone "t".toList dbC8 cName qAge30
        (some [(catKey, .vStr "u".toList)])).2 cName) := by
  have hc : Consistent dbC8 := by
    intro p hp
    simp [dbC8] at hp
  exact ⟨C4_cache_store_consistency.1 "i".toList "t".toList dbC8 cName docC9 hc,
    C4_cache_store_consistency.2.2.2.2.1 rtNone "t".toList dbC8 cName qAge30 _ hc,
    C4_cache_store_consistency.2.2.2.2.2.1 rtNone "t".toList dbC8 cName qAge30 _
      (by decide)⟩

/-- Claim C1 (code defect): the mock find evaluates no filter at all; on
a two-document collection where only the first document matches the
category filter, find returns both documents, not the matching subset
that the repository matcher (the loop used by countDocuments, findOne,
updateOne and deleteOne) selects. -/
theorem C1_find_ignores_filter :
    (findToArray dbC1 designsName qKitchen).1 = [dKitchen, dLiving] ∧
    matchQuery rtNone dKitchen qKitchen = true ∧
    matchQuery rtNone dLiving qKitchen = false ∧
    ¬ (findToArray dbC1 designsName qKitchen).1 =
        [dKitchen, dLiving].filter (fun d => matchQuery rtNone d qKitchen) := by
  refine ⟨rfl, by decide, by decide, fun h => ?_⟩
  exact absurd (congrArg List.length h) (by decide)

/-- Counterexample to C2: with both a $gte and a $lte key present the
matcher returns the $gte result alone, so the document with age 100
matches the 18-to-65 range filter although the conjunction of the two
operators fails at 100. -/
theorem C2_operator_conjunction_counterexample :
    deepCompare rtNone (some (.vNum 100)) ageRangeQ = true ∧
    ¬ ((18 : ℚ) ≤ 100 ∧ (100 : ℚ) ≤ 65) := by decide

/-- Claim C2 as amended: the matcher returns the result of the first
present operator of the fixed chain and ignores every later one (a
$lte next to a $gte is dead); the two examples of the claim hold, both
decided by the $gte bound alone. -/
theorem C2_first_operator_wins :
    (∀ (rt : RegexTest) (item : Option Value) (g l : Value),
       deepCompare rt item (.vObj [(gteKey, g), (lteKey, l)]) =
         deepCompare rt item (.vObj [(gteKey, g)])) ∧
    deepCompare rtNone (some (.vNum 30)) ageRangeQ = true ∧
    deepCompare rtNone (some (.vNum 10)) ageRangeQ = false :=
  ⟨fun _ _ _ _ => rfl, by decide, by decide⟩

/-- Counterexample to C3: on the unrecognized operator key $foo the
source matcher returns the plain boolean false (it falls through to the
serialization comparison), the very outcome an ordinary non-matching
literal produces, while the comparator written from the words of the
spec fails with a ValidationError. -/
theorem C3_unknown_operator_counterexample :
    specDeepCompare rtNone (some (.vNum 30)) fooQ = .error .validationError ∧
    deepCompare rtNone (some (.vNum 30)) fooQ = false ∧
    deepCompare rtNone (some (.vNum 30)) (.vNum 31) = false :=
  ⟨rfl, rfl, rfl⟩

/-- Claim C3 as amended: a filter value object carrying none of the
recognized operator keys is compared by JSON-serialization equality with
the field value, never an error; concretely, findOne under an unknown
operator filter returns none, indistinguishable from no match. -/
theorem C3_unknown_operator_falls_back :
    (∀ (rt : RegexTest) (item : Option Value) (fields : Doc),
       ([inKey, gtKey, gteKey, ltKey, lteKey, neKey, regexKey].all
          (fun k => (getFieldL fields k).isNone)) = true →
       deepCompare rt item (.vObj fields) = jsonEqOpt item (.vObj fields)) ∧
    (findOne rtNone dbC3 "people".toList [(ageKey, fooQ)]).1 = none := by
  constructor
  · intro rt item fields h
    simp only [List.all_cons, List.all_nil, Bool.and_true, Bool.and_eq_true,
      Option.isNone_iff_eq_none] at h
    obtain ⟨h1, h2, h3, h4, h5, h6, h7⟩ := h
    simp [deepCompare, getProp, h1, h2, h3, h4, h5, h6, h7]
  · rfl

/-- Witness for C3 as amended, at the unknown key $foo. -/
theorem C3_unknown_operator_falls_back_witness :
    deepCompare rtNone (some (.vNum 30)) (.vObj [("$foo".toList, .vNum 1)]) =
      jsonEqOpt (some (.vNum 30)) (.vObj [("$foo".toList, .vNum 1)]) :=
  C3_unknown_operator_falls_back.1 rtNone (some (.vNum 30))
    [("$foo".toList, .vNum 1)] (by decide)

/-- Counterexample to C7: the string field value 30 compared with the
numeric bound 18 under $gt is true, because JavaScript coerces the
mismatched operand types to numbers rather than evaluating to false. -/
theorem C7_type_coercion_counterexample :
    deepCompare rtNone (some (.vStr "30".toList)) (.vObj [(gtKey, .vNum 18)]) =
      true ∧
    ¬ jsTypeof (.vStr "30".toList) = jsTypeof (.vNum 18) := by decide

/-- Claim C7 as amended: same-typed operands use native ordering (number
order for numbers, code-unit order for strings), while mixed-typed
operands are coerced to numbers: a numeric string compares by its value,
and a comparison is false when a coercion yields NaN. -/
theorem C7_relational_semantics :
    (∀ (rt : RegexTest) (a b : ℚ),
       deepCompare rt (some (.vNum a)) (.vObj [(gtKey, .vNum b)]) =
         decide (b < a)) ∧
    (∀ (rt : RegexTest) (s t : Str),
       deepCompare rt (some (.vStr s)) (.vObj [(gtKey, .vStr t)]) =
         lexLt t s) ∧
    deepCompare rtNone (some (.vStr "30".toList)) (.vObj [(gtKey, .vNum 18)]) =
      true ∧
    deepCompare rtNone (some (.vStr "abc".toList)) (.vObj [(gtKey, .vNum 5)]) =
      false :=
  ⟨fun _ _ _ => rfl, fun _ _ _ => rfl, by decide, by decide⟩

/-- Counterexample to C9: when the persisting setItem call of insertOne
raises, the backing medium still holds the pre-operation array while the
collection cache entry has already been replaced with the appended
array, so the failing operation does not leave both tiers unchanged. -/
theorem C9_partial_write_counterexample :
    (insertOneStoreFail "i".toList "t".toList dbC9 cName docC9).store =
      dbC9.store ∧
    lookupCol (insertOneStoreFail "i".toList "t".toList dbC9 cName docC9).cache
        cName = some [stampInsert "i".toList "t".toList docC9] ∧
    ¬ lookupCol (insertOneStoreFail "i".toList "t".toList dbC9 cName
          docC9).cache cName = lookupCol dbC9.cache cName := by
  refine ⟨rfl, rfl, fun h => ?_⟩
  exact absurd (congrArg (fun o => (Option.getD o []).length) h) (by decide)

/-- Claim C9 as amended: a backing-medium write failure in insertOne
leaves the medium at its pre-operation contents but the collection cache
already replaced with the post-operation array (the cache assignment
precedes the persist call), so the two tiers diverge instead of both
reverting. -/
theorem C9_partial_write_divergence :
    ∀ (newId now : Str) (db : DB) (n : Str) (doc : Doc),
      (insertOneStoreFail newId now db n doc).store = db.store ∧
      lookupCol (insertOneStoreFail newId now db n doc).cache n =
        some (loadItems db n ++ [stampInsert newId now doc]) :=
  fun _ _ _ _ _ => ⟨rfl, lookupCol_setCol_same _ _ _⟩

/-- Counterexample to C10: a present but falsy _id (the empty string)
does not trigger the id branch: although the _id fields of document and
filter agree, findOne consults the remaining fields and returns none. -/
theorem C10_falsy_id_counterexample :
    getFieldL d10a idKey = some (.vStr []) ∧
    getFieldL q10a idKey = some (.vStr []) ∧
    (findOne rtNone db10a cName q10a).1 = none :=
  ⟨rfl, rfl, rfl⟩

/-- Claim C10 as amended: for every filter whose _id value is truthy,
the shared per-item predicate reduces to the id comparison alone
(ObjectId instances unwrapped to their id strings, other filter fields
ignored); concretely a document whose _id matches is found, updated and
deleted although its other fields contradict the filter. -/
theorem C10_truthy_id_short_circuit :
    (∀ (rt : RegexTest) (d q : Doc) (qid : Value),
       getFieldL q idKey = some qid → jsTruthy qid = true →
       matchesQuery rt d q = idMatch d qid) ∧
    (findOne rtNone db10b cName q10b).1 = some d10b ∧
    (updateOne rtNone "t".toList db10b cName q10b
       (some [(catKey, .vStr "u".toList)])).1 = (1, 1, true) ∧
    (deleteOne rtNone db10b cName q10b).1 = (1, true) := by
  refine ⟨?_, rfl, rfl, rfl⟩
  intro rt d q qid hq htr
  simp [matchesQuery, hq, htr]

/-- Witness for C10 as amended, at an ObjectId-valued filter id. -/
theorem C10_truthy_id_short_circuit_witness :
    matchesQuery rtNone d10b q10b = idMatch d10b (.vOid "x".toList) :=
  C10_truthy_id_short_circuit.1 rtNone d10b q10b (.vOid "x".toList) rfl rfl

end InterioWala
